import Mathlib

/-
  Verification development for the parkour-game collision and motion core
  (class Game in the main source file).  The geometric state is embedded
  over the ideal reals; the three js vector operations used by the source
  (add, sub, multiplyScalar, addScaledVector, dot, length, distanceTo,
  distanceToSquared, normalize) are translated below.  Note that the
  library normalize divides by (length or 1), so a zero vector normalizes
  to itself rather than producing NaN; the embedding keeps that guard.
-/

open scoped Classical

noncomputable section

namespace ParkourPro

/-- A 3-component vector over the reals, modelling THREE.Vector3. -/
@[ext] structure Vec3 where
  x : ℝ
  y : ℝ
  z : ℝ

namespace Vec3

instance : Add Vec3 := ⟨fun a b => ⟨a.x + b.x, a.y + b.y, a.z + b.z⟩⟩

instance : Sub Vec3 := ⟨fun a b => ⟨a.x - b.x, a.y - b.y, a.z - b.z⟩⟩

instance : Neg Vec3 := ⟨fun a => ⟨-a.x, -a.y, -a.z⟩⟩

instance : SMul ℝ Vec3 := ⟨fun t a => ⟨t * a.x, t * a.y, t * a.z⟩⟩

instance : Zero Vec3 := ⟨⟨0, 0, 0⟩⟩

@[simp] theorem add_x (a b : Vec3) : (a + b).x = a.x + b.x := rfl

@[simp] theorem add_y (a b : Vec3) : (a + b).y = a.y + b.y := rfl

@[simp] theorem add_z (a b : Vec3) : (a + b).z = a.z + b.z := rfl

@[simp] theorem sub_x (a b : Vec3) : (a - b).x = a.x - b.x := rfl

@[simp] theorem sub_y (a b : Vec3) : (a - b).y = a.y - b.y := rfl

@[simp] theorem sub_z (a b : Vec3) : (a - b).z = a.z - b.z := rfl

@[simp] theorem smul_x (t : ℝ) (a : Vec3) : (t • a).x = t * a.x := rfl

@[simp] theorem smul_y (t : ℝ) (a : Vec3) : (t • a).y = t * a.y := rfl

@[simp] theorem smul_z (t : ℝ) (a : Vec3) : (t • a).z = t * a.z := rfl

@[simp] theorem zero_x : (0 : Vec3).x = 0 := rfl

@[simp] theorem zero_y : (0 : Vec3).y = 0 := rfl

@[simp] theorem zero_z : (0 : Vec3).z = 0 := rfl

/-- Dot product, as in THREE.Vector3.dot. -/
def dot (a b : Vec3) : ℝ := a.x * b.x + a.y * b.y + a.z * b.z

/-- Squared length (THREE.Vector3.lengthSq, also distanceToSquared of the
difference). -/
def lengthSq (a : Vec3) : ℝ := a.x * a.x + a.y * a.y + a.z * a.z

/-- Length (THREE.Vector3.length). -/
def length (a : Vec3) : ℝ := Real.sqrt a.lengthSq

/-- Squared distance between two points (THREE.Vector3.distanceToSquared). -/
def distSq (a b : Vec3) : ℝ := lengthSq (a - b)

/-- Distance between two points (THREE.Vector3.distanceTo). -/
def dist (a b : Vec3) : ℝ := Real.sqrt (distSq a b)

/-- THREE.Vector3.normalize: divideScalar(length or 1).  When the length is
zero the vector is divided by 1, i.e. the zero vector stays the zero vector
instead of producing NaN. -/
def normalize (a : Vec3) : Vec3 := if a.length = 0 then a else (1 / a.length) • a

theorem dot_comm (a b : Vec3) : dot a b = dot b a := by
  simp only [dot]; ring

@[simp] theorem dot_add_right (a b c : Vec3) :
    dot a (b + c) = dot a b + dot a c := by
  simp only [dot, add_x, add_y, add_z]; ring

@[simp] theorem dot_sub_right (a b c : Vec3) :
    dot a (b - c) = dot a b - dot a c := by
  simp only [dot, sub_x, sub_y, sub_z]; ring

@[simp] theorem dot_smul_right (a : Vec3) (t : ℝ) (b : Vec3) :
    dot a (t • b) = t * dot a b := by
  simp only [dot, smul_x, smul_y, smul_z]; ring

@[simp] theorem dot_smul_left (t : ℝ) (a b : Vec3) :
    dot (t • a) b = t * dot a b := by
  simp only [dot, smul_x, smul_y, smul_z]; ring

theorem dot_self (a : Vec3) : dot a a = lengthSq a := by
  simp only [dot, lengthSq]

theorem lengthSq_nonneg (a : Vec3) : 0 ≤ lengthSq a := by
  simp only [lengthSq]
  nlinarith [sq_nonneg a.x, sq_nonneg a.y, sq_nonneg a.z]

theorem length_nonneg (a : Vec3) : 0 ≤ length a := Real.sqrt_nonneg _

theorem sq_length (a : Vec3) : length a * length a = lengthSq a :=
  Real.mul_self_sqrt (lengthSq_nonneg a)

theorem lengthSq_eq_zero_iff (a : Vec3) : lengthSq a = 0 ↔ a = 0 := by
  constructor
  · intro h
    simp only [lengthSq] at h
    have hx : a.x = 0 := by nlinarith [sq_nonneg a.x, sq_nonneg a.y, sq_nonneg a.z]
    have hy : a.y = 0 := by nlinarith [sq_nonneg a.x, sq_nonneg a.y, sq_nonneg a.z]
    have hz : a.z = 0 := by nlinarith [sq_nonneg a.x, sq_nonneg a.y, sq_nonneg a.z]
    ext <;> simpa
  · intro h
    subst h
    simp [lengthSq]

theorem length_eq_zero_iff (a : Vec3) : length a = 0 ↔ a = 0 := by
  rw [length, Real.sqrt_eq_zero (lengthSq_nonneg a), lengthSq_eq_zero_iff]

theorem length_pos_of_ne_zero {a : Vec3} (h : a ≠ 0) : 0 < length a := by
  rcases lt_or_eq_of_le (length_nonneg a) with hlt | heq
  · exact hlt
  · exact absurd ((length_eq_zero_iff a).mp heq.symm) h

theorem length_smul (t : ℝ) (a : Vec3) : length (t • a) = |t| * length a := by
  simp only [length, lengthSq, smul_x, smul_y, smul_z]
  have : t * a.x * (t * a.x) + t * a.y * (t * a.y) + t * a.z * (t * a.z)
      = t ^ 2 * (a.x * a.x + a.y * a.y + a.z * a.z) := by ring
  rw [this, Real.sqrt_mul (sq_nonneg t), Real.sqrt_sq_eq_abs]

theorem length_normalize {a : Vec3} (h : a ≠ 0) : length (normalize a) = 1 := by
  have hl : 0 < length a := length_pos_of_ne_zero h
  rw [normalize, if_neg (ne_of_gt hl), length_smul]
  rw [abs_of_pos (by positivity)]
  field_simp

theorem dot_normalize_self {a : Vec3} (h : a ≠ 0) :
    dot (normalize a) (normalize a) = 1 := by
  have := length_normalize h
  calc dot (normalize a) (normalize a) = lengthSq (normalize a) := dot_self _
    _ = length (normalize a) * length (normalize a) := (sq_length _).symm
    _ = 1 := by rw [this]; norm_num

/-- Any nonzero vector is its length times its normalization. -/
theorem eq_length_smul_normalize {a : Vec3} (h : a ≠ 0) :
    a = length a • normalize a := by
  have hl : 0 < length a := length_pos_of_ne_zero h
  rw [normalize, if_neg (ne_of_gt hl)]
  ext <;> simp <;> field_simp

@[simp] theorem normalize_zero : normalize (0 : Vec3) = 0 := by
  simp [normalize, length, lengthSq]

theorem dist_eq_sqrt (a b : Vec3) : dist a b = Real.sqrt (distSq a b) := rfl

end Vec3

/-- A contact returned by the spatial world index (Octree.capsuleIntersect or
Octree.sphereIntersect): a surface normal and a nonnegative penetration
depth. -/
@[ext] structure Contact where
  normal : Vec3
  depth : ℝ

/-- The player capsule collider (three js Capsule).  The field named end in
the source is called endpt here because end is a reserved word in Lean. -/
@[ext] structure Capsule where
  start : Vec3
  endpt : Vec3
  radius : ℝ

/-- Translate the capsule by a vector (Capsule.translate). -/
def Capsule.translate (c : Capsule) (t : Vec3) : Capsule :=
  ⟨c.start + t, c.endpt + t, c.radius⟩

/-- One slot of the projectile pool: sphere collider (center and radius),
velocity, and the hasExploded flag gating shockwave spawn.  In the source
the flag starts out absent (undefined, falsy) and is only ever set to true;
it is modelled as a Bool that starts false. -/
@[ext] structure PoolSphere where
  center : Vec3
  radius : ℝ
  velocity : Vec3
  hasExploded : Bool

/-- A shockwave effect: angular samples, per-sample expansion speeds (stored
but never read by the updater), remaining life, the fixed impact point
(field position in the source), and the current ring sample positions
(the mesh geometry position attribute). -/
@[ext] structure Shockwave where
  angles : List ℝ
  speeds : List ℝ
  life : ℝ
  position : Vec3
  ringPositions : List Vec3

/-- The slice of the Game instance state that the verified operations read
and write.  Rendering, audio and DOM fields are omitted; the camera is kept
as a position plus Euler rotation triple.  numSpheres models NUM_SPHERES
and throwCooldown the fixed cooldown 0.03. -/
@[ext] structure GameState where
  playerCollider : Capsule
  playerVelocity : Vec3
  spheres : List PoolSphere
  sphereIdx : ℕ
  shockwaves : List Shockwave
  ballsThrown : ℕ
  throwTimer : ℝ
  throwCooldown : ℝ
  useBalls : Bool
  numSpheres : ℕ
  deathCount : ℕ
  cameraPos : Vec3
  cameraRot : Vec3

/-- throwBall.  Inputs besides the state: the camera world direction (the
source writes it into the playerDirection scratch) and the hold duration in
milliseconds (performance.now() minus mouseTime).  The three early returns
reject the throw with no state change; otherwise the slot at sphereIdx is
repositioned and relaunched, the index advances cyclically, the thrown
count increments and the timer is reset to the cooldown.  The slot lookup
cannot fail in source states since sphereIdx is always reduced modulo the
pool length; a failed lookup is modelled as a no-op. -/
def throwBall (g : GameState) (dir : Vec3) (holdMillis : ℝ) : GameState :=
  if g.useBalls = false then g
  else if 0 < g.throwTimer then g
  else if g.numSpheres ≤ g.ballsThrown then g
  else
    match g.spheres.get? g.sphereIdx with
    | none => g
    | some s =>
      let impulse : ℝ := 15 + 30 * (1 - Real.exp (-holdMillis * 0.001))
      let newCenter := g.playerCollider.endpt + (g.playerCollider.radius * 1.5) • dir
      let newVelocity := impulse • dir + (2 : ℝ) • g.playerVelocity
      { g with
        spheres := g.spheres.set g.sphereIdx ({ s with center := newCenter, velocity := newVelocity }),
        sphereIdx := (g.sphereIdx + 1) % g.spheres.length,
        ballsThrown := g.ballsThrown + 1,
        throwTimer := g.throwCooldown }

/-- The ring sample angles used by createShockwave: angle i is
(i / ringCount) times two pi, with ringCount = 40. -/
def shockwaveAngles : List ℝ :=
  (List.range 40).map (fun (i : ℕ) => ((i : ℝ) / 40) * Real.pi * 2)

/-- createShockwave.  Builds the 40-sample ring at initial radius 0.1 around
the impact point, then applies the spawn-time side effect on the player:
if the distance from the capsule end to the impact point is below 2, the
vertical player velocity is set to 1.5.  The per-sample random speeds are
an input (Math.random stream).  The new shockwave is appended with life 1
and its position fixed to the impact point. -/
def createShockwave (g : GameState) (position : Vec3) (speeds : List ℝ) : GameState :=
  let ringPositions := shockwaveAngles.map (fun a =>
    (⟨position.x + Real.cos a * 0.1, position.y, position.z + Real.sin a * 0.1⟩ : Vec3))
  let playerPos := g.playerCollider.endpt
  let d := Vec3.dist playerPos position
  let g1 := if d < 2 then
      { g with playerVelocity :=
          ⟨g.playerVelocity.x, 1.5, g.playerVelocity.z⟩ }
    else g
  { g1 with shockwaves := g1.shockwaves ++
      [⟨shockwaveAngles, speeds, 1, position, ringPositions⟩] }

/-- The body of the forEach loop in updateSpheres, for the sphere at index
i: integrate the center, query the world; on contact spawn a shockwave on
the first contact of the slot and set hasExploded, then reflect the
velocity with factor 1.5 along the normal and push out by the depth;
without contact apply gravity; finally apply the exponential damping.
world is the octree sphereIntersect oracle (center and radius to optional
contact), speeds the random stream for a spawned shockwave. -/
def updateSphereStep (G dt : ℝ) (world : Vec3 → ℝ → Option Contact)
    (speeds : List ℝ) (g : GameState) (i : ℕ) : GameState :=
  match g.spheres.get? i with
  | none => g
  | some s =>
    let c1 := s.center + dt • s.velocity
    match world c1 s.radius with
    | some res =>
      let g1 := if s.hasExploded = false then createShockwave g c1 speeds else g
      let v1 := s.velocity + (-(Vec3.dot res.normal s.velocity) * 1.5) • res.normal
      let c2 := c1 + res.depth • res.normal
      let damping := Real.exp (-1.5 * dt) - 1
      let v2 := v1 + damping • v1
      { g1 with spheres := g1.spheres.set i ({ s with center := c2, velocity := v2, hasExploded := true }) }
    | none =>
      let v1 : Vec3 := ⟨s.velocity.x, s.velocity.y - G * dt, s.velocity.z⟩
      let damping := Real.exp (-1.5 * dt) - 1
      let v2 := v1 + damping • v1
      { g with spheres := g.spheres.set i ({ s with center := c1, velocity := v2 }) }

/-- The body of the inner pair loop of spheresCollisions, applied to one
unordered pair: if the centers are closer than the summed radii, exchange
the normal components of the velocities and separate the centers by half
the penetration each, along the center-to-center normal. -/
def sphereColPair (s1 s2 : PoolSphere) : PoolSphere × PoolSphere :=
  let d2 := Vec3.distSq s1.center s2.center
  let r := s1.radius + s2.radius
  if d2 < r * r then
    let normal := Vec3.normalize (s1.center - s2.center)
    let v1 := (Vec3.dot normal s1.velocity) • normal
    let v2 := (Vec3.dot normal s2.velocity) • normal
    let d := (r - Real.sqrt d2) / 2
    ({ s1 with velocity := s1.velocity + v2 - v1, center := s1.center + d • normal },
     { s2 with velocity := s2.velocity + v1 - v2, center := s2.center - d • normal })
  else (s1, s2)

/-- The mutable data touched by playerSphereCollision: player velocity, the
sphere center and velocity, and the shared scratch vector1.  Before the
probe loop the scratch holds the capsule midpoint; every firing probe
overwrites it with that probe's collision normal (the source computes the
normal into this.vector1, the same object that the probe list entry named
center refers to). -/
@[ext] structure ProbeState where
  playerVelocity : Vec3
  sphereCenter : Vec3
  sphereVelocity : Vec3
  vector1 : Vec3

/-- One probe of playerSphereCollision at point p, with r the summed
radius: on overlap, exchange the normal velocity components between player
and sphere and push the sphere center away from the probe point by half
the penetration; the scratch vector1 ends up holding the normal. -/
def probeStep (r : ℝ) (p : Vec3) (st : ProbeState) : ProbeState :=
  let d2 := Vec3.distSq p st.sphereCenter
  if d2 < r * r then
    let normal := Vec3.normalize (p - st.sphereCenter)
    let v1 := (Vec3.dot normal st.playerVelocity) • normal
    let v2 := (Vec3.dot normal st.sphereVelocity) • normal
    { playerVelocity := st.playerVelocity + v2 - v1,
      sphereVelocity := st.sphereVelocity + v1 - v2,
      sphereCenter := st.sphereCenter + (-((r - Real.sqrt d2) / 2)) • normal,
      vector1 := normal }
  else st

/-- playerSphereCollision: three probes in the fixed order start, end, then
the current content of the scratch vector (which held the midpoint before
the loop and is overwritten with the collision normal by any firing
probe).  Returns the new player velocity and the updated sphere. -/
def playerSphereCollision (caps : Capsule) (pv : Vec3) (sph : PoolSphere) :
    Vec3 × PoolSphere :=
  let r := caps.radius + sph.radius
  let mid : Vec3 := (0.5 : ℝ) • (caps.start + caps.endpt)
  let st0 : ProbeState := ⟨pv, sph.center, sph.velocity, mid⟩
  let st1 := probeStep r caps.start st0
  let st2 := probeStep r caps.endpt st1
  let st3 := probeStep r st2.vector1 st2
  (st3.playerVelocity, { sph with center := st3.sphereCenter, velocity := st3.sphereVelocity })

/-- Modelled from the spec: the resolution the specification describes, in
which the third probe is always the true midpoint of the capsule segment,
independent of earlier probes.  Used only to compare against the source
translation playerSphereCollision. -/
def playerSphereCollisionSpec (caps : Capsule) (pv : Vec3) (sph : PoolSphere) :
    Vec3 × PoolSphere :=
  let r := caps.radius + sph.radius
  let mid : Vec3 := (0.5 : ℝ) • (caps.start + caps.endpt)
  let st0 : ProbeState := ⟨pv, sph.center, sph.velocity, mid⟩
  let st1 := probeStep r caps.start st0
  let st2 := probeStep r caps.endpt st1
  let st3 := probeStep r mid st2
  (st3.playerVelocity, { sph with center := st3.sphereCenter, velocity := st3.sphereVelocity })

/-- playerCollisions: query the world index with the capsule; with no
contact the floor flag is false; with a contact the flag is the sign of the
up-component of the normal, the velocity is projected off the normal only
when not grounded, and a depth of at least 1e-10 pushes the capsule out
along the normal.  Returns (capsule, velocity, onFloor). -/
def playerCollisions (world : Capsule → Option Contact) (caps : Capsule)
    (pv : Vec3) : Capsule × Vec3 × Bool :=
  match world caps with
  | none => (caps, pv, false)
  | some res =>
    if 0 < res.normal.y then
      let caps1 := if (1e-10 : ℝ) ≤ res.depth then caps.translate (res.depth • res.normal) else caps
      (caps1, pv, true)
    else
      let pv1 := pv + (-(Vec3.dot res.normal pv)) • res.normal
      let caps1 := if (1e-10 : ℝ) ≤ res.depth then caps.translate (res.depth • res.normal) else caps
      (caps1, pv1, false)

/-- The velocity integration prefix of updatePlayer: exponential damping,
with gravity applied and the damping scaled by 0.1 only when airborne. -/
def updatePlayerVelocity (G dt : ℝ) (onFloor : Bool) (pv : Vec3) : Vec3 :=
  let damping := Real.exp (-20 * dt) - 1
  if onFloor then pv + damping • pv
  else
    let pv1 : Vec3 := ⟨pv.x, pv.y - G * dt, pv.z⟩
    pv1 + (damping * 0.1) • pv1

/-- teleportPlayerIfOob: when the camera height is at most -25, increment
the death counter, reset the capsule to the canonical pose, move the camera
to the capsule end and restore the configured look-at rotation (rx, ry
from config.playerLookAt).  The player velocity is not touched. -/
def teleportPlayerIfOob (rx ry : ℝ) (g : GameState) : GameState :=
  if g.cameraPos.y ≤ -25 then
    { g with
      deathCount := g.deathCount + 1,
      playerCollider := ⟨⟨0, 0.5, 0⟩, ⟨0, 1.65, 0⟩, 0.35⟩,
      cameraPos := ⟨0, 1.65, 0⟩,
      cameraRot := ⟨rx, ry, 0⟩ }
  else g

/-- Aging of one shockwave inside updateShockwaves: decrement life by
12 dt, then recompute every ring sample at radius (1 - life) * 6 around
the fixed impact point, at its height. -/
def updateShockwave1 (dt : ℝ) (s : Shockwave) : Shockwave :=
  let life := s.life - dt * 12
  let r := (1 - life) * 6
  { s with life := life,
           ringPositions := s.angles.map (fun a =>
             (⟨s.position.x + Real.cos a * r, s.position.y, s.position.z + Real.sin a * r⟩ : Vec3)) }

/-- The launch condition checked inside the sample loop of
updateShockwaves, on the already-aged shockwave: the loop body runs once
per angular sample, and fires when the distance from the capsule end to
the impact point lies strictly between r - 1 and r.  The distance is the
full three-dimensional distance (playerPos.distanceTo). -/
def shockwaveHitsPlayer (playerEnd : Vec3) (s : Shockwave) : Prop :=
  s.angles ≠ [] ∧
  Vec3.dist playerEnd s.position < (1 - s.life) * 6 ∧
  (1 - s.life) * 6 - 1 < Vec3.dist playerEnd s.position

/-- updateShockwaves: each shockwave ages by 12 dt, its ring samples are
recomputed, the vertical player velocity is set to 25 whenever some aged
shockwave passes the band test against the capsule end, and shockwaves
whose life dropped to 0 or below are removed in the same update.  The
source iterates the list from the back with in-place splice; since each
iteration touches only its own shockwave and (idempotently) the constant
vertical velocity, the result is the order-preserving map-filter below. -/
def updateShockwaves (dt : ℝ) (g : GameState) : GameState :=
  let pe := g.playerCollider.endpt
  let aged := g.shockwaves.map (updateShockwave1 dt)
  let launched : Prop := ∃ s ∈ aged, shockwaveHitsPlayer pe s
  { g with
    shockwaves := aged.foldr (fun s acc => if 0 < s.life then s :: acc else acc) [],
    playerVelocity := if launched then
        ⟨g.playerVelocity.x, 25, g.playerVelocity.z⟩
      else g.playerVelocity }

/-- The delta computed at the top of animate and passed to every updater in
the frame, including updateShockwaves: the clamped frame delta divided by
STEPS_PER_FRAME = 5. -/
def animateSubstepDelta (frameDelta : ℝ) : ℝ := min 0.05 frameDelta / 5

/-- The shockwave phase of animate: updateShockwaves invoked once per
rendered frame with the sub-step delta value. -/
def animateShockwavePhase (frameDelta : ℝ) (g : GameState) : GameState :=
  updateShockwaves (animateSubstepDelta frameDelta) g

/-- Modelled from the spec: the horizontal (xz-plane) distance between two
points, the reading of the claim that the launch band uses the player's
horizontal distance to the origin.  Used only to compare with the source,
which uses the full distance. -/
def horizontalDist (a b : Vec3) : ℝ :=
  Real.sqrt ((a.x - b.x) * (a.x - b.x) + (a.z - b.z) * (a.z - b.z))

/-- Resolve the pair (i, j) inside the sphere list, as one iteration of the
nested loops of spheresCollisions. -/
def collidePairAt (l : List PoolSphere) (i j : ℕ) : List PoolSphere :=
  match l.get? i, l.get? j with
  | some a, some b =>
    let p := sphereColPair a b
    (l.set i p.1).set j p.2
  | _, _ => l

/-- spheresCollisions: every unordered pair (i, j) with i < j, in the order
of the source nested loops. -/
def spheresCollisions (l : List PoolSphere) : List PoolSphere :=
  (List.range l.length).foldl (fun acc i =>
    (List.range (l.length - (i + 1))).foldl (fun acc2 k => collidePairAt acc2 i (i + 1 + k)) acc) l

/-- updateSpheres: the forEach pass over every pool slot followed by the
pairwise sphere collisions (the final loop only mirrors collider centers
into the meshes). -/
def updateSpheres (G dt : ℝ) (world : Vec3 → ℝ → Option Contact)
    (speeds : List ℝ) (g : GameState) : GameState :=
  let g1 := (List.range g.spheres.length).foldl (updateSphereStep G dt world speeds) g
  { g1 with spheres := spheresCollisions g1.spheres }

/-
  Helper lemmas shared by the claim proofs.
-/

/-- Evaluate a square root at a perfect square. -/
theorem sqrt_eval {a b : ℝ} (hb : 0 ≤ b) (h : b * b = a) : Real.sqrt a = b := by
  rw [← h]
  exact Real.sqrt_mul_self hb

theorem Vec3.sub_eq_zero_iff (a b : Vec3) : a - b = 0 ↔ a = b := by
  constructor
  · intro h
    have hx := congrArg Vec3.x h
    have hy := congrArg Vec3.y h
    have hz := congrArg Vec3.z h
    simp only [Vec3.sub_x, Vec3.sub_y, Vec3.sub_z, Vec3.zero_x, Vec3.zero_y, Vec3.zero_z] at hx hy hz
    ext <;> linarith
  · intro h
    subst h
    ext <;> simp

@[simp] theorem Vec3.smul_zero_vec (t : ℝ) : t • (0 : Vec3) = 0 := by
  ext <;> simp

@[simp] theorem Vec3.add_zero_vec (a : Vec3) : a + 0 = a := by
  ext <;> simp

@[simp] theorem Vec3.sub_zero_vec (a : Vec3) : a - 0 = a := by
  ext <;> simp

@[simp] theorem Vec3.dot_zero_left (b : Vec3) : Vec3.dot 0 b = 0 := by
  simp [Vec3.dot]

@[simp] theorem Vec3.dot_zero_right (a : Vec3) : Vec3.dot a 0 = 0 := by
  simp [Vec3.dot]

/-- Evaluate normalize at a vector whose squared length is a known square. -/
theorem Vec3.normalize_eval {v : Vec3} {l : ℝ} (hl : 0 < l)
    (h : Vec3.lengthSq v = l * l) : Vec3.normalize v = (1 / l) • v := by
  have hlen : Vec3.length v = l := by
    rw [Vec3.length, h]
    exact sqrt_eval (le_of_lt hl) rfl
  rw [Vec3.normalize, hlen, if_neg (ne_of_gt hl)]

/-- createShockwave never touches the sphere pool. -/
theorem createShockwave_spheres (g : GameState) (pos : Vec3) (speeds : List ℝ) :
    (createShockwave g pos speeds).spheres = g.spheres := by
  by_cases h : Vec3.dist g.playerCollider.endpt pos < 2 <;>
    simp [createShockwave, h]

/-- createShockwave appends exactly one shockwave. -/
theorem createShockwave_length (g : GameState) (pos : Vec3) (speeds : List ℝ) :
    (createShockwave g pos speeds).shockwaves.length = g.shockwaves.length + 1 := by
  by_cases h : Vec3.dist g.playerCollider.endpt pos < 2 <;>
    simp [createShockwave, h]

/-- Membership in the conditional foldr used to drop expired shockwaves. -/
theorem mem_foldr_keep {α : Type} (p : α → Prop) (l : List α) (x : α) :
    x ∈ l.foldr (fun a acc => if p a then a :: acc else acc) [] ↔ x ∈ l ∧ p x := by
  induction l with
  | nil => simp
  | cons a t ih =>
    by_cases h : p a
    · simp only [List.foldr, if_pos h, List.mem_cons, ih]
      constructor
      · rintro (rfl | ⟨ht, hp⟩)
        · exact ⟨Or.inl rfl, h⟩
        · exact ⟨Or.inr ht, hp⟩
      · rintro ⟨rfl | ht, hp⟩
        · exact Or.inl rfl
        · exact Or.inr ⟨ht, hp⟩
    · simp only [List.foldr, if_neg h, List.mem_cons, ih]
      constructor
      · rintro ⟨ht, hp⟩
        exact ⟨Or.inr ht, hp⟩
      · rintro ⟨rfl | ht, hp⟩
        · exact absurd hp h
        · exact ⟨ht, hp⟩

/-- The canonical player capsule pose. -/
def caps0 : Capsule := ⟨⟨0, 0.5, 0⟩, ⟨0, 1.65, 0⟩, 0.35⟩

/-- A minimal concrete game state used to instantiate the theorems. -/
def baseState : GameState :=
  { playerCollider := caps0
    playerVelocity := ⟨0, 0, 0⟩
    spheres := []
    sphereIdx := 0
    shockwaves := []
    ballsThrown := 0
    throwTimer := 0
    throwCooldown := 0.03
    useBalls := true
    numSpheres := 0
    deathCount := 0
    cameraPos := ⟨0, 1.65, 0⟩
    cameraRot := ⟨0, 0, 0⟩ }

theorem get?_set_self {α : Type} (l : List α) (i : ℕ) (a : α) (h : i < l.length) :
    (l.set i a).get? i = some a := by
  rw [List.get?_eq_getElem?]
  exact List.getElem?_set_self h

theorem get?_set_other {α : Type} (l : List α) (i j : ℕ) (a : α) (h : i ≠ j) :
    (l.set i a).get? j = l.get? j := by
  rw [List.get?_eq_getElem?, List.getElem?_set_ne h, ← List.get?_eq_getElem?]

/-- Claim C10: spawning a shockwave has an immediate spawn-time side effect
on the player besides the expanding ring: when the distance from the
capsule end point to the impact point is strictly below 2 the vertical
player velocity is set to 1.5 (the horizontal components untouched),
otherwise the player velocity is left unchanged; exactly one shockwave is
appended either way. -/
theorem C10_createShockwave_spawn_effect (g : GameState) (pos : Vec3) (speeds : List ℝ) :
    (createShockwave g pos speeds).shockwaves.length = g.shockwaves.length + 1 ∧
    (Vec3.dist g.playerCollider.endpt pos < 2 →
      (createShockwave g pos speeds).playerVelocity =
        ⟨g.playerVelocity.x, 1.5, g.playerVelocity.z⟩) ∧
    (2 ≤ Vec3.dist g.playerCollider.endpt pos →
      (createShockwave g pos speeds).playerVelocity = g.playerVelocity) := by
  refine ⟨createShockwave_length g pos speeds, ?_, ?_⟩
  · intro h
    simp [createShockwave, h]
  · intro h
    simp [createShockwave, not_lt.mpr h]

/-- Witness for C10: a concrete impact one unit from the capsule end sets
the vertical velocity to 1.5. -/
theorem C10_createShockwave_spawn_effect_witness :
    Vec3.dist baseState.playerCollider.endpt ⟨0, 1.65, 1⟩ < 2 ∧
    (createShockwave baseState ⟨0, 1.65, 1⟩ []).playerVelocity = ⟨0, 1.5, 0⟩ := by
  have h1 : Vec3.distSq baseState.playerCollider.endpt ⟨0, 1.65, 1⟩ = 1 := by
    simp [baseState, caps0, Vec3.distSq, Vec3.lengthSq]
  have hd : Vec3.dist baseState.playerCollider.endpt ⟨0, 1.65, 1⟩ = 1 := by
    rw [Vec3.dist, h1, Real.sqrt_one]
  have hlt : Vec3.dist baseState.playerCollider.endpt ⟨0, 1.65, 1⟩ < 2 := by
    rw [hd]; norm_num
  refine ⟨hlt, ?_⟩
  have H := (C10_createShockwave_spawn_effect baseState ⟨0, 1.65, 1⟩ []).2.1 hlt
  rw [H]
  simp [baseState]

/-- Claim C2 (amended): when the camera height is at or below -25 the check
increments the death counter by one, resets the capsule to the canonical
pose, moves the camera to the canonical capsule end and restores the
configured look-at rotation; the player velocity is left unchanged, not
reset to zero.  Above the threshold nothing changes. -/
theorem C2_teleport_oob_behavior (rx ry : ℝ) (g : GameState) :
    (g.cameraPos.y ≤ -25 →
      (teleportPlayerIfOob rx ry g).deathCount = g.deathCount + 1 ∧
      (teleportPlayerIfOob rx ry g).playerCollider = ⟨⟨0, 0.5, 0⟩, ⟨0, 1.65, 0⟩, 0.35⟩ ∧
      (teleportPlayerIfOob rx ry g).cameraPos = ⟨0, 1.65, 0⟩ ∧
      (teleportPlayerIfOob rx ry g).cameraRot = ⟨rx, ry, 0⟩ ∧
      (teleportPlayerIfOob rx ry g).playerVelocity = g.playerVelocity) ∧
    (-25 < g.cameraPos.y → teleportPlayerIfOob rx ry g = g) := by
  constructor
  · intro h
    simp [teleportPlayerIfOob, h]
  · intro h
    simp [teleportPlayerIfOob, not_le.mpr h]

/-- An out-of-bounds state with nonzero falling velocity. -/
def oobState : GameState :=
  { baseState with cameraPos := ⟨0, -30, 0⟩, playerVelocity := ⟨0, -10, 0⟩ }

/-- Counterexample to C2 as stated: the out-of-bounds check fires (camera
height -30 is at or below -25) yet the player velocity is not reset to the
zero vector — the source never touches playerVelocity in
teleportPlayerIfOob. -/
theorem C2_velocity_not_reset_cex :
    oobState.cameraPos.y ≤ -25 ∧
    (teleportPlayerIfOob 0 0 oobState).playerVelocity ≠ ⟨0, 0, 0⟩ := by
  constructor
  · norm_num [oobState, baseState]
  · intro h
    have hy := congrArg Vec3.y h
    norm_num [teleportPlayerIfOob, oobState, baseState] at hy

/-- A state exactly at the out-of-bounds threshold. -/
def oobBoundaryState : GameState := { baseState with cameraPos := ⟨0, -25, 0⟩ }

/-- Witness for C2 (amended) at the threshold camera height -25. -/
theorem C2_teleport_oob_behavior_witness :
    oobBoundaryState.cameraPos.y ≤ -25 ∧
    (teleportPlayerIfOob 1 2 oobBoundaryState).deathCount = 1 ∧
    (teleportPlayerIfOob 1 2 oobBoundaryState).playerVelocity = ⟨0, 0, 0⟩ := by
  have h : oobBoundaryState.cameraPos.y ≤ -25 := by norm_num [oobBoundaryState, baseState]
  have H := (C2_teleport_oob_behavior 1 2 oobBoundaryState).1 h
  refine ⟨h, ?_, ?_⟩
  · rw [H.1]
    norm_num [oobBoundaryState, baseState]
  · rw [H.2.2.2.2]
    simp [oobBoundaryState, baseState]

/-- Claim C3: a throw request is rejected with no state change at all
exactly when the subsystem is disabled, the timer is strictly positive, or
the thrown count reached pool capacity; otherwise it is accepted: it
repositions and relaunches the current slot, advances the index
cyclically, increments the thrown count and resets the timer to the
cooldown, leaving every other slot unchanged. -/
theorem C3_throwBall_accept_reject (g : GameState) (dir : Vec3) (hold : ℝ)
    (hidx : g.sphereIdx < g.spheres.length) :
    ((g.useBalls = false ∨ 0 < g.throwTimer ∨ g.numSpheres ≤ g.ballsThrown) →
      throwBall g dir hold = g) ∧
    (g.useBalls = true → g.throwTimer ≤ 0 → g.ballsThrown < g.numSpheres →
      throwBall g dir hold ≠ g ∧
      (throwBall g dir hold).ballsThrown = g.ballsThrown + 1 ∧
      (throwBall g dir hold).sphereIdx = (g.sphereIdx + 1) % g.spheres.length ∧
      (throwBall g dir hold).throwTimer = g.throwCooldown ∧
      (∀ s, g.spheres.get? g.sphereIdx = some s →
        (throwBall g dir hold).spheres.get? g.sphereIdx = some
          { s with
            center := g.playerCollider.endpt + (g.playerCollider.radius * 1.5) • dir,
            velocity := (15 + 30 * (1 - Real.exp (-hold * 0.001))) • dir +
              (2 : ℝ) • g.playerVelocity }) ∧
      (∀ j, j ≠ g.sphereIdx → (throwBall g dir hold).spheres.get? j = g.spheres.get? j)) := by
  constructor
  · rintro (h | h | h)
    · simp [throwBall, h]
    · by_cases hb : g.useBalls = false
      · simp [throwBall, hb]
      · simp [throwBall, hb, h]
    · by_cases hb : g.useBalls = false
      · simp [throwBall, hb]
      · by_cases ht : 0 < g.throwTimer
        · simp [throwBall, hb, ht]
        · simp [throwBall, hb, ht, h]
  · intro h1 h2 h3
    obtain ⟨s, hs⟩ : ∃ s, g.spheres.get? g.sphereIdx = some s :=
      ⟨_, List.get?_eq_get hidx⟩
    have hb : ¬ g.useBalls = false := by simp [h1]
    have ht : ¬ 0 < g.throwTimer := not_lt.mpr h2
    have hc : ¬ g.numSpheres ≤ g.ballsThrown := not_le.mpr h3
    have hthrow : throwBall g dir hold =
        { g with
          spheres := g.spheres.set g.sphereIdx
            ({ s with
              center := g.playerCollider.endpt + (g.playerCollider.radius * 1.5) • dir,
              velocity := (15 + 30 * (1 - Real.exp (-hold * 0.001))) • dir +
                (2 : ℝ) • g.playerVelocity }),
          sphereIdx := (g.sphereIdx + 1) % g.spheres.length,
          ballsThrown := g.ballsThrown + 1,
          throwTimer := g.throwCooldown } := by
      simp only [throwBall, if_neg hb, if_neg ht, if_neg hc, hs]
    refine ⟨?_, ?_, ?_, ?_, ?_, ?_⟩
    · intro heq
      have := congrArg GameState.ballsThrown heq
      rw [hthrow] at this
      simp at this
    · rw [hthrow]
    · rw [hthrow]
    · rw [hthrow]
    · intro s2 hs2
      rw [hs] at hs2
      cases hs2
      rw [hthrow]
      exact get?_set_self _ _ _ hidx
    · intro j hj
      rw [hthrow]
      exact get?_set_other _ _ _ _ (fun h => hj h.symm)

/-- A one-slot pool, timer expired, nothing thrown yet. -/
def throwState : GameState :=
  { baseState with
    spheres := [⟨⟨0, -100, 0⟩, 0.2, ⟨0, 0, 0⟩, false⟩],
    numSpheres := 1 }

/-- Witness for C3: with one free slot and an expired timer the throw is
accepted and updates count, cooldown and index. -/
theorem C3_throwBall_accept_reject_witness :
    throwBall throwState ⟨0, 0, 1⟩ 0 ≠ throwState ∧
    (throwBall throwState ⟨0, 0, 1⟩ 0).ballsThrown = 1 ∧
    (throwBall throwState ⟨0, 0, 1⟩ 0).throwTimer = 0.03 ∧
    (throwBall throwState ⟨0, 0, 1⟩ 0).sphereIdx = 0 := by
  have hidx : throwState.sphereIdx < throwState.spheres.length := by
    simp [throwState, baseState]
  have H := (C3_throwBall_accept_reject throwState ⟨0, 0, 1⟩ 0 hidx).2
    (by simp [throwState, baseState])
    (by simp [throwState, baseState])
    (by simp [throwState, baseState])
  refine ⟨H.1, ?_, ?_, ?_⟩
  · rw [H.2.1]
    simp [throwState, baseState]
  · rw [H.2.2.2.1]
    simp [throwState, baseState]
  · rw [H.2.2.1]
    simp [throwState, baseState]

/-- Throwing never touches the shockwave list. -/
theorem throwBall_shockwaves (g : GameState) (dir : Vec3) (hold : ℝ) :
    (throwBall g dir hold).shockwaves = g.shockwaves := by
  unfold throwBall
  repeat' split
  all_goals rfl

/-- Throwing never changes the hasExploded flag of any slot: the source
overwrites only center and velocity of the reused slot. -/
theorem throwBall_flag (g : GameState) (dir : Vec3) (hold : ℝ) (j : ℕ) :
    ((throwBall g dir hold).spheres.get? j).map PoolSphere.hasExploded =
      (g.spheres.get? j).map PoolSphere.hasExploded := by
  by_cases hb : g.useBalls = false
  · simp [throwBall, hb]
  by_cases ht : 0 < g.throwTimer
  · simp [throwBall, hb, ht]
  by_cases hc : g.numSpheres ≤ g.ballsThrown
  · simp [throwBall, hb, ht, hc]
  cases hg : g.spheres.get? g.sphereIdx with
  | none =>
    have hg2 : g.spheres[g.sphereIdx]? = none := by
      rw [← List.get?_eq_getElem?]; exact hg
    simp [throwBall, hb, ht, hc, hg, hg2]
  | some s0 =>
    obtain ⟨hlen0, -⟩ := List.get?_eq_some.mp hg
    by_cases hj : j = g.sphereIdx
    · subst hj
      simp only [throwBall, if_neg hb, if_neg ht, if_neg hc, hg]
      rw [get?_set_self _ _ _ hlen0]
      simp
    · simp only [throwBall, if_neg hb, if_neg ht, if_neg hc, hg]
      rw [get?_set_other _ _ _ _ (fun hh => hj hh.symm)]

/-- A sphere whose flag is already set spawns no shockwave on contact. -/
theorem updateSphereStep_shockwaves_of_exploded (G dt : ℝ)
    (world : Vec3 → ℝ → Option Contact) (speeds : List ℝ) (g : GameState)
    (i : ℕ) (s : PoolSphere) (hs : g.spheres.get? i = some s)
    (he : s.hasExploded = true) :
    (updateSphereStep G dt world speeds g i).shockwaves = g.shockwaves := by
  have hs2 : g.spheres[i]? = some s := by
    rw [← List.get?_eq_getElem?]; exact hs
  cases hw : world (s.center + dt • s.velocity) s.radius with
  | none => simp [updateSphereStep, hs, hs2, hw]
  | some res => simp [updateSphereStep, hs, hs2, hw, he]

/-- Claim C8: the floor flag is true exactly when the world query returns a
contact whose normal has a strictly positive up-component (and false when
there is no contact); a grounded contact does not project the velocity off
the normal; a flat contact with depth zero leaves capsule and velocity
unchanged and sets the flag; the grounded branch of the following velocity
integration applies no gravity (its result does not depend on the gravity
constant), so a player at rest stays at rest. -/
theorem C8_grounded_contact (world : Capsule → Option Contact) (G dt : ℝ)
    (caps : Capsule) (pv : Vec3) :
    ((playerCollisions world caps pv).2.2 = true ↔
      ∃ res, world caps = some res ∧ 0 < res.normal.y) ∧
    (∀ res, world caps = some res → 0 < res.normal.y →
      (playerCollisions world caps pv).2.1 = pv) ∧
    (world caps = some ⟨⟨0, 1, 0⟩, 0⟩ →
      playerCollisions world caps pv = (caps, pv, true)) ∧
    (world caps = none → (playerCollisions world caps pv).2.2 = false) ∧
    (∀ G2 v, updatePlayerVelocity G dt true v = updatePlayerVelocity G2 dt true v) ∧
    (updatePlayerVelocity G dt true ⟨0, 0, 0⟩ = ⟨0, 0, 0⟩) := by
  refine ⟨?_, ?_, ?_, ?_, ?_, ?_⟩
  · cases hw : world caps with
    | none => simp [playerCollisions, hw]
    | some res =>
      by_cases hy : 0 < res.normal.y
      · simp [playerCollisions, hw, hy]
      · simp [playerCollisions, hw, hy]
  · intro res hw hy
    simp [playerCollisions, hw, hy]
  · intro hw
    have hy : (0 : ℝ) < (⟨⟨0, 1, 0⟩, 0⟩ : Contact).normal.y := by norm_num
    have hd : ¬ ((1e-10 : ℝ) ≤ (⟨⟨0, 1, 0⟩, 0⟩ : Contact).depth) := by norm_num
    simp [playerCollisions, hw, hy, hd]
  · intro hw
    simp [playerCollisions, hw]
  · intro G2 v
    simp [updatePlayerVelocity]
  · simp only [updatePlayerVelocity, if_pos]
    ext <;> simp

/-- A world oracle that always reports a flat floor contact at depth 0. -/
def worldFlat : Capsule → Option Contact := fun _ => some ⟨⟨0, 1, 0⟩, 0⟩

/-- Witness for C8 on the flat-floor oracle with the canonical capsule at
rest. -/
theorem C8_grounded_contact_witness :
    playerCollisions worldFlat caps0 ⟨0, 0, 0⟩ = (caps0, ⟨0, 0, 0⟩, true) ∧
    updatePlayerVelocity 25 0.01 true ⟨0, 0, 0⟩ = ⟨0, 0, 0⟩ :=
  ⟨(C8_grounded_contact worldFlat 25 0.01 caps0 ⟨0, 0, 0⟩).2.2.1 rfl,
   (C8_grounded_contact worldFlat 25 0.01 caps0 ⟨0, 0, 0⟩).2.2.2.2.2⟩

/-- Claim C9: with coincident centers the zero-length normal is normalized
to the zero vector (the library normalize divides by length or one), so
the collision response for the pair degenerates to the identity: both
sphere-sphere and player-sphere probe resolution leave every velocity and
every center unchanged, and no undefined value enters the state. -/
theorem C9_coincident_centers (s1 s2 : PoolSphere) (r : ℝ) (p : Vec3) (st : ProbeState) :
    (s1.center = s2.center → sphereColPair s1 s2 = (s1, s2)) ∧
    (p = st.sphereCenter →
      (probeStep r p st).playerVelocity = st.playerVelocity ∧
      (probeStep r p st).sphereVelocity = st.sphereVelocity ∧
      (probeStep r p st).sphereCenter = st.sphereCenter) := by
  constructor
  · intro h
    have hz : s1.center - s2.center = 0 := (Vec3.sub_eq_zero_iff _ _).mpr h
    by_cases hc : Vec3.distSq s1.center s2.center <
        (s1.radius + s2.radius) * (s1.radius + s2.radius)
    · simp [sphereColPair, hc, hz]
    · simp [sphereColPair, hc]
  · intro h
    have hz : p - st.sphereCenter = 0 := (Vec3.sub_eq_zero_iff _ _).mpr h
    by_cases hc : Vec3.distSq p st.sphereCenter < r * r
    · refine ⟨?_, ?_, ?_⟩ <;> simp [probeStep, hc, hz]
    · refine ⟨?_, ?_, ?_⟩ <;> simp [probeStep, hc]

/-- Two pool spheres parked at the same point. -/
def coincSphere1 : PoolSphere := ⟨⟨1, 2, 3⟩, 0.2, ⟨4, 5, 6⟩, false⟩

/-- Second sphere at the same center with a different velocity. -/
def coincSphere2 : PoolSphere := ⟨⟨1, 2, 3⟩, 0.2, ⟨-1, 0, 1⟩, true⟩

/-- Witness for C9 at two concrete coincident spheres. -/
theorem C9_coincident_centers_witness :
    sphereColPair coincSphere1 coincSphere2 = (coincSphere1, coincSphere2) :=
  (C9_coincident_centers coincSphere1 coincSphere2 1 ⟨0, 0, 0⟩
    ⟨⟨0, 0, 0⟩, ⟨0, 0, 0⟩, ⟨0, 0, 0⟩, ⟨0, 0, 0⟩⟩).1 rfl

/-- Claim C1 (amended): a world contact flips the hasExploded flag of the
slot to true and grows the live shockwave count by exactly one precisely
when the flag was still false; when the flag is already true a further
contact spawns nothing and the flag stays true; without contact neither
changes.  The throw operation does not reset the flag of any slot, so the
first contact condition is relative to the level, not to the last throw;
the two coincide in guarded play because the thrown-count cap equals the
pool capacity and no slot is ever rethrown within a level. -/
theorem C1_first_contact_explosion (G dt : ℝ) (world : Vec3 → ℝ → Option Contact)
    (speeds : List ℝ) (g : GameState) (i : ℕ) (s : PoolSphere)
    (hs : g.spheres.get? i = some s) :
    (∀ res, world (s.center + dt • s.velocity) s.radius = some res →
      (s.hasExploded = false →
        ((updateSphereStep G dt world speeds g i).spheres.get? i).map PoolSphere.hasExploded
            = some true ∧
        (updateSphereStep G dt world speeds g i).shockwaves.length
            = g.shockwaves.length + 1) ∧
      (s.hasExploded = true →
        ((updateSphereStep G dt world speeds g i).spheres.get? i).map PoolSphere.hasExploded
            = some true ∧
        (updateSphereStep G dt world speeds g i).shockwaves.length = g.shockwaves.length)) ∧
    (world (s.center + dt • s.velocity) s.radius = none →
      ((updateSphereStep G dt world speeds g i).spheres.get? i).map PoolSphere.hasExploded
          = some s.hasExploded ∧
      (updateSphereStep G dt world speeds g i).shockwaves.length = g.shockwaves.length) ∧
    (∀ dir hold j,
      ((throwBall g dir hold).spheres.get? j).map PoolSphere.hasExploded
          = (g.spheres.get? j).map PoolSphere.hasExploded) := by
  obtain ⟨hlen, -⟩ := List.get?_eq_some.mp hs
  refine ⟨?_, ?_, fun dir hold j => throwBall_flag g dir hold j⟩
  · intro res hres
    constructor
    · intro hflag
      simp only [updateSphereStep, hs, hres, hflag, if_pos]
      constructor
      · rw [createShockwave_spheres]
        rw [get?_set_self _ _ _ hlen]
        rfl
      · simp only [createShockwave_length]
    · intro hflag
      simp only [updateSphereStep, hs, hres, hflag]
      constructor
      · rw [if_neg (by simp)]
        rw [get?_set_self _ _ _ hlen]
        rfl
      · rw [if_neg (by simp)]
  · intro hres
    simp only [updateSphereStep, hs, hres]
    constructor
    · rw [get?_set_self _ _ _ hlen]
      rfl
    · trivial

/-- A fresh one-slot state whose projectile already exploded earlier in the
level, with a free throw budget: the state right before a hypothetical
rethrow of the slot. -/
def rethrowState : GameState :=
  { baseState with
    spheres := [⟨⟨0, -100, 0⟩, 0.2, ⟨0, 0, 0⟩, true⟩],
    numSpheres := 1 }

/-- A world oracle that reports a flat contact everywhere. -/
def worldEverywhere : Vec3 → ℝ → Option Contact := fun _ _ => some ⟨⟨0, 1, 0⟩, 0⟩

/-- Counterexample to C1 as stated: the slot has already exploded; a throw
is accepted and reuses the slot (the state changes), yet the first world
contact after this rethrow spawns no shockwave — the throw operation does
not restart the first-contact condition, because throwBall never clears
hasExploded. -/
theorem C1_rethrow_no_respawn_cex :
    throwBall rethrowState ⟨0, 0, 1⟩ 0 ≠ rethrowState ∧
    ¬ ((updateSphereStep 25 0.01 worldEverywhere []
          (throwBall rethrowState ⟨0, 0, 1⟩ 0) 0).shockwaves.length
        = (throwBall rethrowState ⟨0, 0, 1⟩ 0).shockwaves.length + 1) := by
  have hcount : (throwBall rethrowState ⟨0, 0, 1⟩ 0).ballsThrown = 1 := by
    simp [throwBall, rethrowState, baseState]
  have hflag : ((throwBall rethrowState ⟨0, 0, 1⟩ 0).spheres.get? 0).map PoolSphere.hasExploded
      = some true := by
    rw [throwBall_flag]
    simp [rethrowState, baseState]
  obtain ⟨s2, hs2, he2⟩ : ∃ s2, (throwBall rethrowState ⟨0, 0, 1⟩ 0).spheres.get? 0 = some s2 ∧
      s2.hasExploded = true := by
    cases hq : (throwBall rethrowState ⟨0, 0, 1⟩ 0).spheres.get? 0 with
    | none => rw [hq] at hflag; simp at hflag
    | some s2 => rw [hq] at hflag; simp at hflag; exact ⟨s2, rfl, hflag⟩
  constructor
  · intro h
    rw [h] at hcount
    simp [rethrowState, baseState] at hcount
  · rw [updateSphereStep_shockwaves_of_exploded 25 0.01 worldEverywhere [] _ 0 s2 hs2 he2]
    simp

/-- Witness for C1 (amended): a fresh slot contact spawns exactly one
shockwave and sets the flag. -/
theorem C1_first_contact_explosion_witness :
    ((updateSphereStep 25 0.01 worldEverywhere [] throwState 0).spheres.get? 0).map
        PoolSphere.hasExploded = some true ∧
    (updateSphereStep 25 0.01 worldEverywhere [] throwState 0).shockwaves.length = 1 := by
  have hs : throwState.spheres.get? 0 = some ⟨⟨0, -100, 0⟩, 0.2, ⟨0, 0, 0⟩, false⟩ := by
    simp [throwState, baseState]
  have H := ((C1_first_contact_explosion 25 0.01 worldEverywhere [] throwState 0 _ hs).1
    ⟨⟨0, 1, 0⟩, 0⟩ rfl).1 rfl
  refine ⟨H.1, ?_⟩
  rw [H.2]
  simp [throwState, baseState]

/-- The ring sample list built at spawn has forty entries. -/
theorem shockwaveAngles_ne_nil : shockwaveAngles ≠ [] := by
  intro h
  have hlen := congrArg List.length h
  rw [shockwaveAngles, List.length_map, List.length_range] at hlen
  norm_num at hlen

/-- Claim C6 (amended): during a shockwave update the vertical player
velocity is set to 25 exactly when, for some live shockwave with a
nonempty sample list, the full three-dimensional distance from the capsule
end to the origin lies in the open band (r - 1, r), where
r = (1 - life) * 6 uses the life after the decrement of this update; when
that distance is outside the band for every shockwave, the velocity is
left unchanged.  The source measures playerPos.distanceTo(origin) on the
capsule end, not a horizontal distance. -/
theorem C6_band_launch (dt : ℝ) (g : GameState) :
    ((∃ s ∈ g.shockwaves, s.angles ≠ [] ∧
        Vec3.dist g.playerCollider.endpt s.position < (1 - (s.life - dt * 12)) * 6 ∧
        (1 - (s.life - dt * 12)) * 6 - 1 < Vec3.dist g.playerCollider.endpt s.position) →
      (updateShockwaves dt g).playerVelocity =
        ⟨g.playerVelocity.x, 25, g.playerVelocity.z⟩) ∧
    ((∀ s ∈ g.shockwaves, ¬ (s.angles ≠ [] ∧
        Vec3.dist g.playerCollider.endpt s.position < (1 - (s.life - dt * 12)) * 6 ∧
        (1 - (s.life - dt * 12)) * 6 - 1 < Vec3.dist g.playerCollider.endpt s.position)) →
      (updateShockwaves dt g).playerVelocity = g.playerVelocity) := by
  have hiff : (∃ s ∈ g.shockwaves.map (updateShockwave1 dt),
      shockwaveHitsPlayer g.playerCollider.endpt s) ↔
      (∃ s ∈ g.shockwaves, s.angles ≠ [] ∧
        Vec3.dist g.playerCollider.endpt s.position < (1 - (s.life - dt * 12)) * 6 ∧
        (1 - (s.life - dt * 12)) * 6 - 1 < Vec3.dist g.playerCollider.endpt s.position) := by
    constructor
    · rintro ⟨s, hmem, hhit⟩
      rw [List.mem_map] at hmem
      obtain ⟨t, ht, rfl⟩ := hmem
      refine ⟨t, ht, ?_⟩
      simpa [updateShockwave1, shockwaveHitsPlayer] using hhit
    · rintro ⟨t, ht, h1, h2, h3⟩
      refine ⟨updateShockwave1 dt t, List.mem_map_of_mem _ ht, ?_⟩
      simpa [updateShockwave1, shockwaveHitsPlayer] using ⟨h1, h2, h3⟩
  constructor
  · intro h
    simp only [updateShockwaves]
    rw [if_pos (hiff.mpr h)]
  · intro h
    simp only [updateShockwaves]
    rw [if_neg]
    intro hl
    obtain ⟨t, ht, hc⟩ := hiff.mp hl
    exact (h t ht) hc

/-- A state with the capsule end 4.5 units above a shockwave origin, the
ring one step away from radius 5. -/
def bandState : GameState :=
  { baseState with
    playerCollider := ⟨⟨0, 3.35, 0⟩, ⟨0, 4.5, 0⟩, 0.35⟩,
    shockwaves := [⟨shockwaveAngles, [], 4/15, ⟨0, 0, 0⟩, []⟩] }

/-- Counterexample to C6 as stated: the player hovers straight above the
origin, so the horizontal distance to every live shockwave is 0, outside
the band (4, 5); yet the update launches the player, because the source
uses the full three-dimensional distance 4.5, which is inside the band. -/
theorem C6_horizontal_band_cex :
    (∀ s ∈ bandState.shockwaves,
      ¬ (horizontalDist bandState.playerCollider.endpt s.position <
            (1 - (s.life - (1/120) * 12)) * 6 ∧
          (1 - (s.life - (1/120) * 12)) * 6 - 1 <
            horizontalDist bandState.playerCollider.endpt s.position)) ∧
    (updateShockwaves (1/120) bandState).playerVelocity ≠ bandState.playerVelocity := by
  have hhd : horizontalDist (⟨0, 4.5, 0⟩ : Vec3) ⟨0, 0, 0⟩ = 0 := by
    simp [horizontalDist]
  have hdist : Vec3.dist (⟨0, 4.5, 0⟩ : Vec3) ⟨0, 0, 0⟩ = 4.5 := by
    rw [Vec3.dist]
    apply sqrt_eval (by norm_num)
    norm_num [Vec3.distSq, Vec3.lengthSq]
  have hendpt : bandState.playerCollider.endpt = ⟨0, 4.5, 0⟩ := by
    simp [bandState, baseState]
  constructor
  · intro s hsmem
    have hs : s = ⟨shockwaveAngles, [], 4/15, ⟨0, 0, 0⟩, []⟩ := by
      simpa [bandState, baseState] using hsmem
    subst hs
    rw [hendpt]
    rintro ⟨-, h2⟩
    rw [hhd] at h2
    norm_num at h2
  · have hlaunch : ∃ s ∈ bandState.shockwaves.map (updateShockwave1 (1/120)),
        shockwaveHitsPlayer bandState.playerCollider.endpt s := by
      refine ⟨updateShockwave1 (1/120) ⟨shockwaveAngles, [], 4/15, ⟨0, 0, 0⟩, []⟩, ?_, ?_, ?_, ?_⟩
      · apply List.mem_map_of_mem
        simp [bandState, baseState]
      · simp [updateShockwave1, shockwaveAngles]
      · rw [hendpt]
        simp only [updateShockwave1]
        rw [hdist]
        norm_num
      · rw [hendpt]
        simp only [updateShockwave1]
        rw [hdist]
        norm_num
    intro hEq
    have : (updateShockwaves (1/120) bandState).playerVelocity =
        ⟨bandState.playerVelocity.x, 25, bandState.playerVelocity.z⟩ := by
      simp only [updateShockwaves]
      rw [if_pos hlaunch]
    rw [this] at hEq
    have hy := congrArg Vec3.y hEq
    norm_num [bandState, baseState] at hy

/-- Witness for C6 (amended): the band condition at the concrete state
launches the player to vertical velocity 25. -/
theorem C6_band_launch_witness :
    (updateShockwaves (1/120) bandState).playerVelocity = ⟨0, 25, 0⟩ := by
  have hdist : Vec3.dist (⟨0, 4.5, 0⟩ : Vec3) ⟨0, 0, 0⟩ = 4.5 := by
    rw [Vec3.dist]
    apply sqrt_eval (by norm_num)
    norm_num [Vec3.distSq, Vec3.lengthSq]
  have hendpt : bandState.playerCollider.endpt = ⟨0, 4.5, 0⟩ := by
    simp [bandState, baseState]
  have hlt : Vec3.dist bandState.playerCollider.endpt
      (⟨shockwaveAngles, [], 4/15, ⟨0, 0, 0⟩, []⟩ : Shockwave).position <
      (1 - ((⟨shockwaveAngles, [], 4/15, ⟨0, 0, 0⟩, []⟩ : Shockwave).life - (1/120) * 12)) * 6 := by
    rw [hendpt]
    show Vec3.dist (⟨0, 4.5, 0⟩ : Vec3) ⟨0, 0, 0⟩ < (1 - ((4:ℝ)/15 - (1/120) * 12)) * 6
    rw [hdist]
    norm_num
  have hgt : (1 - ((⟨shockwaveAngles, [], 4/15, ⟨0, 0, 0⟩, []⟩ : Shockwave).life - (1/120) * 12)) * 6 - 1 <
      Vec3.dist bandState.playerCollider.endpt
        (⟨shockwaveAngles, [], 4/15, ⟨0, 0, 0⟩, []⟩ : Shockwave).position := by
    rw [hendpt]
    show (1 - ((4:ℝ)/15 - (1/120) * 12)) * 6 - 1 < Vec3.dist (⟨0, 4.5, 0⟩ : Vec3) ⟨0, 0, 0⟩
    rw [hdist]
    norm_num
  have H := (C6_band_launch (1/120) bandState).1
    ⟨⟨shockwaveAngles, [], 4/15, ⟨0, 0, 0⟩, []⟩, by simp [bandState, baseState],
      shockwaveAngles_ne_nil, hlt, hgt⟩
  rw [H]
  simp [bandState, baseState]

/-- Claim C7 (amended): the effect updater runs once per rendered frame but
receives the sub-step delta (the clamped frame delta divided by
STEPS_PER_FRAME = 5), so each frame every live shockwave's life decreases
by 12 * min(0.05, frameDelta) / 5 — not by 12 times the frame delta — and
its origin never changes; every shockwave whose life reached 0 or below is
removed in the same update, so each remaining shockwave has life strictly
above 0; a shockwave at life one half has every ring sample at distance 3
from its origin. -/
theorem C7_shockwave_aging (fd : ℝ) (g : GameState) :
    (∀ s ∈ (animateShockwavePhase fd g).shockwaves, 0 < s.life) ∧
    (∀ s ∈ (animateShockwavePhase fd g).shockwaves, ∃ t ∈ g.shockwaves,
      s.life = t.life - 12 * (min 0.05 fd / 5) ∧ s.position = t.position) ∧
    (∀ dt : ℝ, ∀ t : Shockwave, (updateShockwave1 dt t).life = 1/2 →
      ∀ p ∈ (updateShockwave1 dt t).ringPositions, Vec3.dist p t.position = 3) := by
  have hlist : (animateShockwavePhase fd g).shockwaves =
      (g.shockwaves.map (updateShockwave1 (min 0.05 fd / 5))).foldr
        (fun s acc => if 0 < s.life then s :: acc else acc) [] := by
    simp only [animateShockwavePhase, animateSubstepDelta, updateShockwaves]
  refine ⟨?_, ?_, ?_⟩
  · intro s hmem
    rw [hlist] at hmem
    exact ((mem_foldr_keep (fun s => 0 < s.life) _ s).mp hmem).2
  · intro s hmem
    rw [hlist] at hmem
    obtain ⟨hmap, -⟩ := (mem_foldr_keep (fun s => 0 < s.life) _ s).mp hmem
    rw [List.mem_map] at hmap
    obtain ⟨t, ht, rfl⟩ := hmap
    refine ⟨t, ht, ?_, ?_⟩
    · simp only [updateShockwave1]
      ring
    · simp only [updateShockwave1]
  · intro dt t hlife p hp
    have hl : t.life - dt * 12 = 1/2 := by
      simpa [updateShockwave1] using hlife
    simp only [updateShockwave1, List.mem_map] at hp
    obtain ⟨a, -, rfl⟩ := hp
    rw [Vec3.dist]
    apply sqrt_eval (by norm_num)
    simp only [Vec3.distSq, Vec3.lengthSq, Vec3.sub_x, Vec3.sub_y, Vec3.sub_z]
    rw [hl]
    have hpyth := Real.sin_sq_add_cos_sq a
    nlinarith [hpyth]

/-- A state holding one full-life shockwave. -/
def frameState : GameState :=
  { baseState with shockwaves := [⟨shockwaveAngles, [], 1, ⟨0, 0, 0⟩, []⟩] }

/-- Counterexample to C7 as stated: with a frame delta of 0.05 the life of
the surviving shockwave decreased by 12 * 0.05 / 5 = 0.12, not by
12 * 0.05 = 0.6 — animate passes the sub-step delta, not the frame delta,
to updateShockwaves. -/
theorem C7_frame_delta_cex :
    (animateShockwavePhase 0.05 frameState).shockwaves.map Shockwave.life =
      [1 - 0.05 / 5 * 12] ∧
    (1 - 0.05 / 5 * 12 : ℝ) ≠ 1 - 12 * 0.05 := by
  constructor
  · have hpos : (0 : ℝ) < 1 - min 0.05 0.05 / 5 * 12 := by
      rw [min_self]
      norm_num
    simp only [animateShockwavePhase, animateSubstepDelta, updateShockwaves,
      frameState, baseState, List.map, updateShockwave1, List.foldr]
    rw [if_pos hpos]
    simp only [List.map]
    rw [min_self]
  · norm_num

/-- A lone ring sample shockwave at half life. -/
def halfLifeShockwave : Shockwave := ⟨[0], [], 1/2, ⟨0, 0, 0⟩, []⟩

/-- Witness for C7 (amended): the ring sample of a half-life shockwave sits
at distance 3 from the origin. -/
theorem C7_shockwave_aging_witness :
    Vec3.dist ⟨3, 0, 0⟩ halfLifeShockwave.position = 3 := by
  have hlife : (updateShockwave1 0 halfLifeShockwave).life = 1/2 := by
    simp [updateShockwave1, halfLifeShockwave]
  have hmem : (⟨3, 0, 0⟩ : Vec3) ∈ (updateShockwave1 0 halfLifeShockwave).ringPositions := by
    simp only [updateShockwave1, halfLifeShockwave, List.map, List.mem_singleton]
    ext <;> norm_num [Real.cos_zero, Real.sin_zero]
  exact (C7_shockwave_aging 0.05 baseState).2.2 0 halfLifeShockwave hlife ⟨3, 0, 0⟩ hmem

theorem Vec3.dist_eq_length (a b : Vec3) : Vec3.dist a b = Vec3.length (a - b) := rfl

/-- Claim C4: for an overlapping pair with distinct centers (masses treated
as equal), the resolution gives each sphere the normal velocity component
of the other (each loses its own and gains the other one), the combined
normal-component momentum is conserved exactly, and the centers end up
separated by exactly the summed radii. -/
theorem C4_sphere_pair_exchange (s1 s2 : PoolSphere)
    (hne : s1.center ≠ s2.center) (hr : 0 ≤ s1.radius + s2.radius)
    (hov : Vec3.distSq s1.center s2.center
        < (s1.radius + s2.radius) * (s1.radius + s2.radius)) :
    Vec3.dot (Vec3.normalize (s1.center - s2.center)) (sphereColPair s1 s2).1.velocity
        = Vec3.dot (Vec3.normalize (s1.center - s2.center)) s2.velocity ∧
    Vec3.dot (Vec3.normalize (s1.center - s2.center)) (sphereColPair s1 s2).2.velocity
        = Vec3.dot (Vec3.normalize (s1.center - s2.center)) s1.velocity ∧
    Vec3.dot (Vec3.normalize (s1.center - s2.center)) (sphereColPair s1 s2).1.velocity +
        Vec3.dot (Vec3.normalize (s1.center - s2.center)) (sphereColPair s1 s2).2.velocity
      = Vec3.dot (Vec3.normalize (s1.center - s2.center)) s1.velocity +
        Vec3.dot (Vec3.normalize (s1.center - s2.center)) s2.velocity ∧
    Vec3.dist (sphereColPair s1 s2).1.center (sphereColPair s1 s2).2.center
      = s1.radius + s2.radius := by
  have hdz : s1.center - s2.center ≠ 0 := by
    intro h
    exact hne ((Vec3.sub_eq_zero_iff _ _).mp h)
  have hnn : Vec3.dot (Vec3.normalize (s1.center - s2.center))
      (Vec3.normalize (s1.center - s2.center)) = 1 := Vec3.dot_normalize_self hdz
  have hpair : sphereColPair s1 s2 =
      ({ s1 with
          velocity := s1.velocity +
            (Vec3.dot (Vec3.normalize (s1.center - s2.center)) s2.velocity) •
              Vec3.normalize (s1.center - s2.center) -
            (Vec3.dot (Vec3.normalize (s1.center - s2.center)) s1.velocity) •
              Vec3.normalize (s1.center - s2.center),
          center := s1.center +
            (((s1.radius + s2.radius) - Real.sqrt (Vec3.distSq s1.center s2.center)) / 2) •
              Vec3.normalize (s1.center - s2.center) },
       { s2 with
          velocity := s2.velocity +
            (Vec3.dot (Vec3.normalize (s1.center - s2.center)) s1.velocity) •
              Vec3.normalize (s1.center - s2.center) -
            (Vec3.dot (Vec3.normalize (s1.center - s2.center)) s2.velocity) •
              Vec3.normalize (s1.center - s2.center),
          center := s2.center -
            (((s1.radius + s2.radius) - Real.sqrt (Vec3.distSq s1.center s2.center)) / 2) •
              Vec3.normalize (s1.center - s2.center) }) := by
    simp only [sphereColPair]
    rw [if_pos hov]
  have h1 : Vec3.dot (Vec3.normalize (s1.center - s2.center)) (sphereColPair s1 s2).1.velocity
      = Vec3.dot (Vec3.normalize (s1.center - s2.center)) s2.velocity := by
    rw [hpair]
    simp only [Vec3.dot_add_right, Vec3.dot_sub_right, Vec3.dot_smul_right, hnn]
    ring
  have h2 : Vec3.dot (Vec3.normalize (s1.center - s2.center)) (sphereColPair s1 s2).2.velocity
      = Vec3.dot (Vec3.normalize (s1.center - s2.center)) s1.velocity := by
    rw [hpair]
    simp only [Vec3.dot_add_right, Vec3.dot_sub_right, Vec3.dot_smul_right, hnn]
    ring
  have hL := Vec3.eq_length_smul_normalize hdz
  have hx := congrArg Vec3.x hL
  have hy := congrArg Vec3.y hL
  have hz := congrArg Vec3.z hL
  simp only [Vec3.sub_x, Vec3.smul_x, Vec3.sub_y, Vec3.smul_y, Vec3.sub_z, Vec3.smul_z]
    at hx hy hz
  have hcent : (sphereColPair s1 s2).1.center - (sphereColPair s1 s2).2.center
      = (s1.radius + s2.radius) • Vec3.normalize (s1.center - s2.center) := by
    rw [hpair]
    rw [show Real.sqrt (Vec3.distSq s1.center s2.center)
        = Vec3.length (s1.center - s2.center) from rfl]
    ext
    · simp only [Vec3.sub_x, Vec3.add_x, Vec3.smul_x]
      linear_combination hx
    · simp only [Vec3.sub_y, Vec3.add_y, Vec3.smul_y]
      linear_combination hy
    · simp only [Vec3.sub_z, Vec3.add_z, Vec3.smul_z]
      linear_combination hz
  refine ⟨h1, h2, by rw [h1, h2]; ring, ?_⟩
  rw [Vec3.dist_eq_length, hcent, Vec3.length_smul, Vec3.length_normalize hdz,
    abs_of_nonneg hr, mul_one]

/-- Two overlapping spheres one unit apart with radii 0.6 each. -/
def colSphere1 : PoolSphere := ⟨⟨1, 0, 0⟩, 0.6, ⟨-1, 0, 0⟩, false⟩

/-- The second overlapping sphere. -/
def colSphere2 : PoolSphere := ⟨⟨0, 0, 0⟩, 0.6, ⟨1, 0, 0⟩, false⟩

/-- Witness for C4: the concrete overlapping pair separates to exactly the
summed radii. -/
theorem C4_sphere_pair_exchange_witness :
    Vec3.dist (sphereColPair colSphere1 colSphere2).1.center
      (sphereColPair colSphere1 colSphere2).2.center = 1.2 := by
  have hne : colSphere1.center ≠ colSphere2.center := by
    intro h
    have hx := congrArg Vec3.x h
    norm_num [colSphere1, colSphere2] at hx
  have hr : (0 : ℝ) ≤ colSphere1.radius + colSphere2.radius := by
    norm_num [colSphere1, colSphere2]
  have hov : Vec3.distSq colSphere1.center colSphere2.center <
      (colSphere1.radius + colSphere2.radius) * (colSphere1.radius + colSphere2.radius) := by
    norm_num [colSphere1, colSphere2, Vec3.distSq, Vec3.lengthSq]
  have H := (C4_sphere_pair_exchange colSphere1 colSphere2 hne hr hov).2.2.2
  rw [H]
  norm_num [colSphere1, colSphere2]

/-- A probe that does not overlap changes nothing. -/
theorem probeStep_no_fire (r : ℝ) (p : Vec3) (st : ProbeState)
    (h : ¬ Vec3.distSq p st.sphereCenter < r * r) : probeStep r p st = st := by
  simp [probeStep, h]

/-- Claim C5 (amended): the probes run in the fixed order start, end, then
the current content of the shared scratch vector.  The scratch holds the
true midpoint only until a probe fires: a firing probe overwrites it with
that probe's collision normal, so the third probed point is the midpoint
exactly in calls where neither the start nor the end probe fired — in that
case the source resolution coincides with the description in the claim.
Every firing probe still exchanges the normal velocity components between
player and sphere and pushes the sphere center away from the probe point
to distance (d + r) / 2, i.e. by half that probe's penetration. -/
theorem C5_probe_structure (caps : Capsule) (pv : Vec3) (sph : PoolSphere) :
    ((caps.radius + sph.radius) * (caps.radius + sph.radius) ≤
        Vec3.distSq caps.start sph.center →
     (caps.radius + sph.radius) * (caps.radius + sph.radius) ≤
        Vec3.distSq caps.endpt sph.center →
      playerSphereCollision caps pv sph = playerSphereCollisionSpec caps pv sph) ∧
    (∀ r : ℝ, ∀ p : Vec3, ∀ st : ProbeState,
      Vec3.distSq p st.sphereCenter < r * r → p ≠ st.sphereCenter → 0 ≤ r →
      (Vec3.dot (Vec3.normalize (p - st.sphereCenter)) (probeStep r p st).playerVelocity
          = Vec3.dot (Vec3.normalize (p - st.sphereCenter)) st.sphereVelocity ∧
       Vec3.dot (Vec3.normalize (p - st.sphereCenter)) (probeStep r p st).sphereVelocity
          = Vec3.dot (Vec3.normalize (p - st.sphereCenter)) st.playerVelocity ∧
       Vec3.dist p (probeStep r p st).sphereCenter
          = (Real.sqrt (Vec3.distSq p st.sphereCenter) + r) / 2)) := by
  constructor
  · intro h1 h2
    have e1 : probeStep (caps.radius + sph.radius) caps.start
        ⟨pv, sph.center, sph.velocity, (0.5 : ℝ) • (caps.start + caps.endpt)⟩ =
        ⟨pv, sph.center, sph.velocity, (0.5 : ℝ) • (caps.start + caps.endpt)⟩ :=
      probeStep_no_fire _ _ _ (not_lt.mpr h1)
    have e2 : probeStep (caps.radius + sph.radius) caps.endpt
        ⟨pv, sph.center, sph.velocity, (0.5 : ℝ) • (caps.start + caps.endpt)⟩ =
        ⟨pv, sph.center, sph.velocity, (0.5 : ℝ) • (caps.start + caps.endpt)⟩ :=
      probeStep_no_fire _ _ _ (not_lt.mpr h2)
    simp only [playerSphereCollision, playerSphereCollisionSpec, e1, e2]
  · intro r p st hfire hnz hrpos
    have hdz : p - st.sphereCenter ≠ 0 := by
      intro h
      exact hnz ((Vec3.sub_eq_zero_iff _ _).mp h)
    have hnn : Vec3.dot (Vec3.normalize (p - st.sphereCenter))
        (Vec3.normalize (p - st.sphereCenter)) = 1 := Vec3.dot_normalize_self hdz
    have hstep : probeStep r p st =
        { playerVelocity := st.playerVelocity +
            (Vec3.dot (Vec3.normalize (p - st.sphereCenter)) st.sphereVelocity) •
              Vec3.normalize (p - st.sphereCenter) -
            (Vec3.dot (Vec3.normalize (p - st.sphereCenter)) st.playerVelocity) •
              Vec3.normalize (p - st.sphereCenter),
          sphereVelocity := st.sphereVelocity +
            (Vec3.dot (Vec3.normalize (p - st.sphereCenter)) st.playerVelocity) •
              Vec3.normalize (p - st.sphereCenter) -
            (Vec3.dot (Vec3.normalize (p - st.sphereCenter)) st.sphereVelocity) •
              Vec3.normalize (p - st.sphereCenter),
          sphereCenter := st.sphereCenter +
            (-((r - Real.sqrt (Vec3.distSq p st.sphereCenter)) / 2)) •
              Vec3.normalize (p - st.sphereCenter),
          vector1 := Vec3.normalize (p - st.sphereCenter) } := by
      simp only [probeStep]
      rw [if_pos hfire]
    have h1 : Vec3.dot (Vec3.normalize (p - st.sphereCenter)) (probeStep r p st).playerVelocity
        = Vec3.dot (Vec3.normalize (p - st.sphereCenter)) st.sphereVelocity := by
      rw [hstep]
      simp only [Vec3.dot_add_right, Vec3.dot_sub_right, Vec3.dot_smul_right, hnn]
      ring
    have h2 : Vec3.dot (Vec3.normalize (p - st.sphereCenter)) (probeStep r p st).sphereVelocity
        = Vec3.dot (Vec3.normalize (p - st.sphereCenter)) st.playerVelocity := by
      rw [hstep]
      simp only [Vec3.dot_add_right, Vec3.dot_sub_right, Vec3.dot_smul_right, hnn]
      ring
    have hL := Vec3.eq_length_smul_normalize hdz
    have hx := congrArg Vec3.x hL
    have hy := congrArg Vec3.y hL
    have hz := congrArg Vec3.z hL
    simp only [Vec3.sub_x, Vec3.smul_x, Vec3.sub_y, Vec3.smul_y, Vec3.sub_z, Vec3.smul_z]
      at hx hy hz
    have hdiff : p - (probeStep r p st).sphereCenter =
        ((Real.sqrt (Vec3.distSq p st.sphereCenter) + r) / 2) •
          Vec3.normalize (p - st.sphereCenter) := by
      rw [hstep]
      rw [show Real.sqrt (Vec3.distSq p st.sphereCenter)
          = Vec3.length (p - st.sphereCenter) from rfl]
      ext
      · simp only [Vec3.sub_x, Vec3.add_x, Vec3.smul_x]
        linear_combination hx
      · simp only [Vec3.sub_y, Vec3.add_y, Vec3.smul_y]
        linear_combination hy
      · simp only [Vec3.sub_z, Vec3.add_z, Vec3.smul_z]
        linear_combination hz
    refine ⟨h1, h2, ?_⟩
    rw [Vec3.dist_eq_length, hdiff, Vec3.length_smul, Vec3.length_normalize hdz, mul_one,
      abs_of_nonneg (by positivity)]

/-- A capsule standing on the y-axis with radius 1. -/
def cexCaps : Capsule := ⟨⟨0, 0, 0⟩, ⟨0, 4, 0⟩, 1⟩

/-- A resting sphere overlapping the capsule end probe. -/
def cexSphere : PoolSphere := ⟨⟨0, 5/2, 0⟩, 1, ⟨0, 0, 0⟩, false⟩

/-- Counterexample to C5 as stated: when the end probe fires it overwrites
the shared scratch with its collision normal (0, 1, 0), so the third probe
tests that point instead of the true midpoint (0, 2, 0); the source leaves
the sphere center at y = 21/8 where the claimed always-midpoint resolution
would put it at y = 25/8. -/
theorem C5_third_probe_cex :
    (playerSphereCollision cexCaps ⟨0, 0, 0⟩ cexSphere).2.center.y = 21/8 ∧
    (playerSphereCollisionSpec cexCaps ⟨0, 0, 0⟩ cexSphere).2.center.y = 25/8 ∧
    (21/8 : ℝ) ≠ 25/8 := by
  have hstart : cexCaps.start = ⟨0, 0, 0⟩ := rfl
  have hend : cexCaps.endpt = ⟨0, 4, 0⟩ := rfl
  have hcen : cexSphere.center = ⟨0, 5/2, 0⟩ := rfl
  have hvel : cexSphere.velocity = ⟨0, 0, 0⟩ := rfl
  have hradius : cexCaps.radius + cexSphere.radius = 2 := by
    norm_num [cexCaps, cexSphere]
  have hmid : (0.5 : ℝ) • ((⟨0, 0, 0⟩ : Vec3) + ⟨0, 4, 0⟩) = ⟨0, 2, 0⟩ := by
    ext <;> norm_num
  have e1 : probeStep 2 (⟨0, 0, 0⟩ : Vec3)
      (⟨⟨0, 0, 0⟩, ⟨0, 5/2, 0⟩, ⟨0, 0, 0⟩, ⟨0, 2, 0⟩⟩ : ProbeState)
      = ⟨⟨0, 0, 0⟩, ⟨0, 5/2, 0⟩, ⟨0, 0, 0⟩, ⟨0, 2, 0⟩⟩ :=
    probeStep_no_fire _ _ _ (by norm_num [Vec3.distSq, Vec3.lengthSq])
  have hn2 : Vec3.normalize ((⟨0, 4, 0⟩ : Vec3) - ⟨0, 5/2, 0⟩) = ⟨0, 1, 0⟩ := by
    rw [Vec3.normalize_eval (show (0:ℝ) < 3/2 by norm_num) (by norm_num [Vec3.lengthSq])]
    ext <;> norm_num
  have hsq2 : Real.sqrt (Vec3.distSq (⟨0, 4, 0⟩ : Vec3) ⟨0, 5/2, 0⟩) = 3/2 := by
    apply sqrt_eval (by norm_num)
    norm_num [Vec3.distSq, Vec3.lengthSq]
  have e2 : probeStep 2 (⟨0, 4, 0⟩ : Vec3)
      (⟨⟨0, 0, 0⟩, ⟨0, 5/2, 0⟩, ⟨0, 0, 0⟩, ⟨0, 2, 0⟩⟩ : ProbeState)
      = ⟨⟨0, 0, 0⟩, ⟨0, 9/4, 0⟩, ⟨0, 0, 0⟩, ⟨0, 1, 0⟩⟩ := by
    have hfire : Vec3.distSq (⟨0, 4, 0⟩ : Vec3) (⟨0, 5/2, 0⟩ : Vec3) < 2 * 2 := by
      norm_num [Vec3.distSq, Vec3.lengthSq]
    simp only [probeStep]
    rw [if_pos hfire, hn2, hsq2]
    ext <;> norm_num [Vec3.dot]
  have hn3 : Vec3.normalize ((⟨0, 1, 0⟩ : Vec3) - ⟨0, 9/4, 0⟩) = ⟨0, -1, 0⟩ := by
    rw [Vec3.normalize_eval (show (0:ℝ) < 5/4 by norm_num) (by norm_num [Vec3.lengthSq])]
    ext <;> norm_num
  have hsq3 : Real.sqrt (Vec3.distSq (⟨0, 1, 0⟩ : Vec3) ⟨0, 9/4, 0⟩) = 5/4 := by
    apply sqrt_eval (by norm_num)
    norm_num [Vec3.distSq, Vec3.lengthSq]
  have e3 : probeStep 2 (⟨0, 1, 0⟩ : Vec3)
      (⟨⟨0, 0, 0⟩, ⟨0, 9/4, 0⟩, ⟨0, 0, 0⟩, ⟨0, 1, 0⟩⟩ : ProbeState)
      = ⟨⟨0, 0, 0⟩, ⟨0, 21/8, 0⟩, ⟨0, 0, 0⟩, ⟨0, -1, 0⟩⟩ := by
    have hfire : Vec3.distSq (⟨0, 1, 0⟩ : Vec3) (⟨0, 9/4, 0⟩ : Vec3) < 2 * 2 := by
      norm_num [Vec3.distSq, Vec3.lengthSq]
    simp only [probeStep]
    rw [if_pos hfire, hn3, hsq3]
    ext <;> norm_num [Vec3.dot]
  have hn3s : Vec3.normalize ((⟨0, 2, 0⟩ : Vec3) - ⟨0, 9/4, 0⟩) = ⟨0, -1, 0⟩ := by
    rw [Vec3.normalize_eval (show (0:ℝ) < 1/4 by norm_num) (by norm_num [Vec3.lengthSq])]
    ext <;> norm_num
  have hsq3s : Real.sqrt (Vec3.distSq (⟨0, 2, 0⟩ : Vec3) ⟨0, 9/4, 0⟩) = 1/4 := by
    apply sqrt_eval (by norm_num)
    norm_num [Vec3.distSq, Vec3.lengthSq]
  have e3s : probeStep 2 (⟨0, 2, 0⟩ : Vec3)
      (⟨⟨0, 0, 0⟩, ⟨0, 9/4, 0⟩, ⟨0, 0, 0⟩, ⟨0, 1, 0⟩⟩ : ProbeState)
      = ⟨⟨0, 0, 0⟩, ⟨0, 25/8, 0⟩, ⟨0, 0, 0⟩, ⟨0, -1, 0⟩⟩ := by
    have hfire : Vec3.distSq (⟨0, 2, 0⟩ : Vec3) (⟨0, 9/4, 0⟩ : Vec3) < 2 * 2 := by
      norm_num [Vec3.distSq, Vec3.lengthSq]
    simp only [probeStep]
    rw [if_pos hfire, hn3s, hsq3s]
    ext <;> norm_num [Vec3.dot]
  have hv1 : (⟨⟨0, 0, 0⟩, ⟨0, 9/4, 0⟩, ⟨0, 0, 0⟩, ⟨0, 1, 0⟩⟩ : ProbeState).vector1
      = ⟨0, 1, 0⟩ := rfl
  refine ⟨?_, ?_, by norm_num⟩
  · simp only [playerSphereCollision]
    rw [hstart, hend, hcen, hvel, hradius, hmid, e1, e2, hv1, e3]
  · simp only [playerSphereCollisionSpec]
    rw [hstart, hend, hcen, hvel, hradius, hmid, e1, e2, e3s]

/-- A sphere far away from the canonical capsule. -/
def farSphere : PoolSphere := ⟨⟨10, 0, 0⟩, 0.2, ⟨0, 0, 0⟩, false⟩

/-- Witness for C5 (amended): with no probe firing on start or end the
source resolution agrees with the always-midpoint description. -/
theorem C5_probe_structure_witness :
    playerSphereCollision caps0 ⟨0, 0, 0⟩ farSphere
      = playerSphereCollisionSpec caps0 ⟨0, 0, 0⟩ farSphere := by
  apply (C5_probe_structure caps0 ⟨0, 0, 0⟩ farSphere).1
  · norm_num [caps0, farSphere, Vec3.distSq, Vec3.lengthSq]
  · norm_num [caps0, farSphere, Vec3.distSq, Vec3.lengthSq]

end ParkourPro

end
